import Mathlib

/-!
Verification of the pi-mono subagent coordinator extension
(`packages/coding-agent/examples/extensions/subagent/`).

The TypeScript sources are embedded shallowly: pure functions become Lean
functions; imperative mutation of the execution budget becomes explicit state
passing; a thrown `Error` becomes `Except.error` carrying the message string;
JavaScript `number` values used as integers (token counts, depths,
milliseconds, exit codes) become `Int`; JS `Set<string>` (insertion-ordered,
duplicate-free) becomes a duplicate-free `List String` in insertion order,
`Array.from` becoming the identity.  JS string primitives (`trim`,
`toLowerCase`, `includes`, `slice`) are modelled explicitly over `List Char`
(`jsTrim`, `jsToLower`, `strIncludes`, `String.take`); `toLowerCase` is
modelled with `Char.toLower`, adequate for the ASCII keyword/fingerprint
material these functions process.
-/

namespace Subagent

/-! ## JavaScript string primitives -/

/-- Model of JS `String.prototype.trim`: drop leading and trailing
whitespace (from `guardrails.ts` string handling). -/
def jsTrim (s : String) : String :=
  String.mk (((s.data.dropWhile Char.isWhitespace).reverse.dropWhile Char.isWhitespace).reverse)

/-- Model of JS `String.prototype.toLowerCase` (ASCII-adequate). -/
def jsToLower (s : String) : String :=
  String.mk (s.data.map Char.toLower)

/-- Does `hay` start with `needle`? (helper for the substring test). -/
def charListStartsWith : List Char → List Char → Bool
  | [], _ => true
  | _ :: _, [] => false
  | a :: as, b :: bs => a == b && charListStartsWith as bs

/-- Does the haystack contain the needle as a contiguous run? -/
def charListHasSub (needle : List Char) : List Char → Bool
  | [] => charListStartsWith needle []
  | c :: rest => charListStartsWith needle (c :: rest) || charListHasSub needle rest

/-- Model of JS `String.prototype.includes` (also of `RegExp.test` on a
literal pattern such as `/\{previous\}/`). -/
def strIncludes (hay needle : String) : Bool :=
  charListHasSub needle.data hay.data

/-- Collapse every run of whitespace characters into a single space,
modelling JS `replace(/\s+/g, " ")`.  The boolean argument records whether
the previous character was whitespace. -/
def collapseWsAux : Bool → List Char → List Char
  | _, [] => []
  | prevWs, c :: rest =>
    if c.isWhitespace then
      if prevWs then collapseWsAux true rest
      else ' ' :: collapseWsAux true rest
    else c :: collapseWsAux false rest

/-! ## guardrails.ts -/

/-- `normalizeTask` (guardrails.ts:81-83):
`task.replace(/\s+/g, " ").trim().toLowerCase()`. -/
def normalizeTask (task : String) : String :=
  jsToLower (jsTrim (String.mk (collapseWsAux false task.data)))

/-- `makeFingerprint` (guardrails.ts:85-87):
`agent.trim().toLowerCase() + "::" + normalizeTask(task)`. -/
def makeFingerprint (agent task : String) : String :=
  jsToLower (jsTrim agent) ++ "::" ++ normalizeTask task

/-- `ExecutionBudget` (guardrails.ts:21-30).  `fingerprints` is the JS
`Set<string>` modelled as its insertion-ordered duplicate-free list. -/
structure ExecutionBudget where
  runId : String
  depth : Int
  maxDepth : Int
  rootStartedAtMs : Int
  deadlineAtMs : Int
  remainingTokens : Int
  fingerprints : List String
  canSpawnChildren : Bool
deriving DecidableEq, Repr

/-- `ChildProcessBudget` (guardrails.ts:32-41). -/
structure ChildProcessBudget where
  runId : String
  nextDepth : Int
  maxDepth : Int
  rootStartedAtMs : Int
  deadlineAtMs : Int
  remainingTokens : Int
  fingerprints : List String
  canSpawnChildren : Bool
deriving DecidableEq, Repr

/-- `reserveChildBudget` (guardrails.ts:119-148).  The JS function mutates
`budget` and returns the child, throwing on failure; here the (possibly
updated) budget is returned alongside `Except` of the child.  `Set.add` of a
fingerprint known to be absent is an ordered append; `Array.from` of the set
is the list itself. -/
def reserveChildBudget (budget : ExecutionBudget) (agentName task : String)
    (reservedDescendantTokens : Int) (allowNestedFromAgent : Bool) :
    ExecutionBudget × Except String ChildProcessBudget :=
  let fingerprint := makeFingerprint agentName task
  if budget.fingerprints.contains fingerprint then
    (budget, Except.error ("Blocked recursive loop for " ++ agentName ++
      ": duplicate delegated task fingerprint."))
  else
    let reserveTotal := 1 + max 0 reservedDescendantTokens
    if budget.remainingTokens < reserveTotal then
      (budget, Except.error ("Subagent budget exceeded: requires " ++
        toString reserveTotal ++ " token(s), only " ++
        toString budget.remainingTokens ++ " remaining."))
    else
      let newBudget : ExecutionBudget :=
        { budget with
          remainingTokens := budget.remainingTokens - reserveTotal
          fingerprints := budget.fingerprints ++ [fingerprint] }
      (newBudget, Except.ok
        { runId := budget.runId
          nextDepth := budget.depth + 1
          maxDepth := budget.maxDepth
          rootStartedAtMs := budget.rootStartedAtMs
          deadlineAtMs := budget.deadlineAtMs
          remainingTokens := max 0 reservedDescendantTokens
          fingerprints := newBudget.fingerprints
          canSpawnChildren := allowNestedFromAgent })

/-- One iteration of the `parseFingerprintSet` loop (guardrails.ts:72-74):
`Set.add` of an item whose trim is non-empty, where `Set.add` appends only
an absent element. -/
def fpInsert (out : List String) (item : String) : List String :=
  if (jsTrim item).length > 0 then
    if out.contains item then out else out ++ [item]
  else out

/-- `parseFingerprintSet` (guardrails.ts:66-79).  The environment variable
holds a JSON string; we model the decoded value: `none` stands for an unset
variable, malformed JSON or a non-array, `some items` for a decoded array of
strings.  Items whose trim is empty are skipped; `Set` insertion dedups. -/
def parseFingerprintSet : Option (List String) → List String
  | none => []
  | some items => items.foldl fpInsert []

/-- The nine budget environment variables as read by
`initializeExecutionBudget` (guardrails.ts:89-113).  Numeric variables are
modelled post-`parseIntegerEnv`: `none` stands for unset, empty or
non-numeric text (which falls back to the default), `some n` for text parsing
to `n`. -/
structure SubagentEnv where
  runId : Option String
  depth : Option Int
  maxDepth : Option Int
  rootStartedAt : Option Int
  deadlineAt : Option Int
  remainingTokens : Option Int
  fingerprints : Option (List String)
  canSpawnChildren : Option String
deriving DecidableEq, Repr

/-- `GuardrailDefaults` (guardrails.ts:43-47). -/
structure GuardrailDefaults where
  maxDepth : Int
  maxTotalAgents : Int
  maxWallTimeMs : Int
deriving DecidableEq, Repr

/-- `DEFAULT_GUARDRAIL_DEFAULTS` (guardrails.ts:49-53). -/
def DEFAULT_GUARDRAIL_DEFAULTS : GuardrailDefaults :=
  { maxDepth := 2, maxTotalAgents := 16, maxWallTimeMs := 10 * 60 * 1000 }

/-- `parseIntegerEnv` on the post-parsing model of a numeric variable. -/
def parseIntegerEnv (value : Option Int) (fallback : Int) : Int :=
  value.getD fallback

/-- `initializeExecutionBudget` (guardrails.ts:89-113).  `freshRunId` stands
for the `randomBytes(8).toString("hex")` fallback; the JS `||` treats an
empty run-id string as absent. -/
def initExecutionBudget (env : SubagentEnv) (nowMs : Int)
    (defaults : GuardrailDefaults) (freshRunId : String) : ExecutionBudget :=
  let runId := match env.runId with
    | some s => if s = "" then freshRunId else s
    | none => freshRunId
  let depth := max 0 (parseIntegerEnv env.depth 0)
  let maxDepth := max 0 (parseIntegerEnv env.maxDepth defaults.maxDepth)
  let rootStartedAtMs := max 0 (parseIntegerEnv env.rootStartedAt nowMs)
  let defaultDeadlineAtMs := rootStartedAtMs + defaults.maxWallTimeMs
  let deadlineAtMs := max rootStartedAtMs (parseIntegerEnv env.deadlineAt defaultDeadlineAtMs)
  let remainingTokens := max 0 (parseIntegerEnv env.remainingTokens defaults.maxTotalAgents)
  { runId := runId
    depth := depth
    maxDepth := maxDepth
    rootStartedAtMs := rootStartedAtMs
    deadlineAtMs := deadlineAtMs
    remainingTokens := remainingTokens
    fingerprints := parseFingerprintSet env.fingerprints
    canSpawnChildren := env.canSpawnChildren != some "0" }

/-! ## policy.ts -/

/-- `TopologyMode` (policy.ts:1). -/
inductive TopologyMode where
  | single
  | parallel
  | chain
deriving DecidableEq, Repr

/-- `TopologyPolicy` (policy.ts:2). -/
inductive TopologyPolicy where
  | advisory
  | auto
deriving DecidableEq, Repr

/-- `ExecutionTaskItem` (policy.ts:4-8). -/
structure ExecutionTaskItem where
  agent : String
  task : String
  cwd : Option String := none
deriving DecidableEq, Repr

/-- `ExecutionPlan` (policy.ts:10-16). -/
structure ExecutionPlan where
  mode : TopologyMode
  single : Option ExecutionTaskItem := none
  tasks : Option (List ExecutionTaskItem) := none
  chain : Option (List ExecutionTaskItem) := none
  notes : List String
deriving DecidableEq, Repr

/-- `ExecutionPlanInput` (policy.ts:38-45). -/
structure ExecutionPlanInput where
  requestedMode : TopologyMode
  policy : TopologyPolicy
  recommendedMode : TopologyMode
  single : Option ExecutionTaskItem := none
  tasks : Option (List ExecutionTaskItem) := none
  chain : Option (List ExecutionTaskItem) := none
deriving DecidableEq, Repr

/-- The literal `{previous}` test `/\{previous\}/.test(item.task)`
(policy.ts:164,191). -/
def taskHasPrevious (task : String) : Bool :=
  strIncludes task "\x7bprevious\x7d"

/-- `normalizeRequestedPlan` (policy.ts:211-233).  The JS object-spread
copies produce values equal to the originals, so they are modelled as
identity. -/
def normalizeRequestedPlan (mode : TopologyMode) (single : Option ExecutionTaskItem)
    (tasks chain : Option (List ExecutionTaskItem)) : ExecutionPlan :=
  match mode with
  | .chain => { mode := mode, chain := some (chain.getD []), notes := [] }
  | .parallel => { mode := mode, tasks := some (tasks.getD []), notes := [] }
  | .single => { mode := mode, single := single, notes := [] }

/-- The body of the `switch (input.recommendedMode)` in `buildExecutionPlan`
(policy.ts:133-202): `some plan` models a `return` inside the switch, `none`
models falling through (`break`) to the common "no safe conversion" tail. -/
def buildExecutionPlanAuto (recommendedMode : TopologyMode)
    (normalized : ExecutionPlan) : Option ExecutionPlan :=
  match recommendedMode with
  | .chain =>
    if normalized.mode = .chain then
      some { normalized with notes := ["auto mode: recommended topology already chain"] }
    else if normalized.mode = .parallel then
      some { mode := .chain, chain := some (normalized.tasks.getD []),
             notes := ["auto mode: switched parallel -> chain for higher coupling/risk"] }
    else
      some { mode := .chain,
             chain := some (match normalized.single with | some s => [s] | none => []),
             notes := ["auto mode: switched single -> chain for higher coupling/risk"] }
  | .parallel =>
    if normalized.mode = .parallel then
      some { normalized with notes := ["auto mode: recommended topology already parallel"] }
    else if normalized.mode = .chain then
      let chain := normalized.chain.getD []
      let containsPrevious := chain.any (fun item => taskHasPrevious item.task)
      if !containsPrevious && chain.length > 1 then
        some { mode := .parallel, tasks := some chain,
               notes := ["auto mode: switched chain -> parallel (no \x7bprevious\x7d dependencies)"] }
      else none
    else none
  | .single =>
    if normalized.mode = .single then
      some { normalized with notes := ["auto mode: recommended topology already single"] }
    else if normalized.mode = .parallel ∧ (normalized.tasks.getD []).length = 1 then
      some { mode := .single, single := (normalized.tasks.getD []).head?,
             notes := ["auto mode: switched parallel -> single (single task)"] }
    else if normalized.mode = .chain ∧ (normalized.chain.getD []).length = 1 then
      match (normalized.chain.getD []).head? with
      | some first =>
        if !taskHasPrevious first.task then
          some { mode := .single, single := some first,
                 notes := ["auto mode: switched chain -> single (single independent step)"] }
        else none
      | none => none
    else none

/-- `buildExecutionPlan` (policy.ts:123-209). -/
def buildExecutionPlan (input : ExecutionPlanInput) : ExecutionPlan :=
  let normalized := normalizeRequestedPlan input.requestedMode input.single input.tasks input.chain
  if input.policy = .advisory then
    { normalized with notes := ["advisory mode: requested topology kept"] }
  else
    match buildExecutionPlanAuto input.recommendedMode normalized with
    | some plan => plan
    | none =>
      { normalized with
        notes := ["auto mode: no safe topology conversion available; using requested mode"] }

/-! ## worktree.ts — isolation decision -/

/-- `ExecutionIsolation` (worktree.ts:5). -/
inductive ExecutionIsolation where
  | shared
  | worktree
  | auto
deriving DecidableEq, Repr

/-- `ResolvedExecutionIsolation` (worktree.ts:6). -/
inductive ResolvedExecutionIsolation where
  | shared
  | worktree
deriving DecidableEq, Repr

/-- `ExecutionIsolationTaskInput` (worktree.ts:36-40). -/
structure ExecutionIsolationTaskInput where
  task : String
  agent : Option String := none
  agentTools : Option (List String) := none
deriving DecidableEq, Repr

/-- `ExecutionIsolationDecisionInput` (worktree.ts:42-48). -/
structure ExecutionIsolationDecisionInput where
  requestedIsolation : ExecutionIsolation
  mode : TopologyMode
  single : Option ExecutionIsolationTaskInput := none
  tasks : Option (List ExecutionIsolationTaskInput) := none
  chain : Option (List ExecutionIsolationTaskInput) := none
deriving DecidableEq, Repr

/-- `ExecutionIsolationDecision` (worktree.ts:50-54). -/
structure ExecutionIsolationDecision where
  requestedIsolation : ExecutionIsolation
  selectedIsolation : ResolvedExecutionIsolation
  reason : String
deriving DecidableEq, Repr

/-- `WRITE_TASK_KEYWORDS` (worktree.ts:65-82). -/
def WRITE_TASK_KEYWORDS : List String :=
  ["edit", "modify", "update", "implement", "write", "create", "refactor",
   "fix", "delete", "add", "remove", "patch", "rename", "replace", "migrate", "apply"]

/-- `READ_ONLY_TASK_KEYWORDS` (worktree.ts:84-98). -/
def READ_ONLY_TASK_KEYWORDS : List String :=
  ["list", "find", "search", "inspect", "read", "analyze", "summarize",
   "explain", "locate", "show", "identify", "scan", "report"]

/-- `DIRECT_WRITE_TOOLS` (worktree.ts:100). -/
def DIRECT_WRITE_TOOLS : List String := ["write", "edit", "bash"]

/-- `isWriteIntent` (worktree.ts:352-355). -/
def isWriteIntent (task : String) : Bool :=
  WRITE_TASK_KEYWORDS.any (fun keyword => strIncludes (jsToLower task) keyword)

/-- `isLikelyReadOnlyIntent` (worktree.ts:357-362). -/
def isLikelyReadOnlyIntent (task : String) : Bool :=
  let hasReadKeyword := READ_ONLY_TASK_KEYWORDS.any (fun keyword => strIncludes (jsToLower task) keyword)
  let hasWriteKeyword := WRITE_TASK_KEYWORDS.any (fun keyword => strIncludes (jsToLower task) keyword)
  hasReadKeyword && !hasWriteKeyword

/-- `isWriteCapable` (worktree.ts:364-367): an absent or empty declared tool
list is treated as write-capable. -/
def isWriteCapable (agentTools : Option (List String)) : Bool :=
  match agentTools with
  | none => true
  | some tools =>
    if tools.length = 0 then true
    else tools.any (fun tool => DIRECT_WRITE_TOOLS.contains tool)

/-- `extractIsolationTasks` (worktree.ts:346-350). -/
def extractIsolationTasks (input : ExecutionIsolationDecisionInput) :
    List ExecutionIsolationTaskInput :=
  match input.mode with
  | .parallel => input.tasks.getD []
  | .chain => input.chain.getD []
  | .single => match input.single with | some s => [s] | none => []

/-- `decideExecutionIsolation` (worktree.ts:110-182). -/
def decideExecutionIsolation (input : ExecutionIsolationDecisionInput) :
    ExecutionIsolationDecision :=
  match input.requestedIsolation with
  | .shared =>
    { requestedIsolation := input.requestedIsolation, selectedIsolation := .shared,
      reason := "isolation explicitly set to shared" }
  | .worktree =>
    { requestedIsolation := input.requestedIsolation, selectedIsolation := .worktree,
      reason := "isolation explicitly set to worktree" }
  | .auto =>
    let tasks := extractIsolationTasks input
    let hasWriteIntent := tasks.any (fun task => isWriteIntent task.task)
    let hasReadOnlyIntent := tasks.length > 0 && tasks.all (fun task => isLikelyReadOnlyIntent task.task)
    let hasWriteCapableAgents := tasks.any (fun task => isWriteCapable task.agentTools)
    match input.mode with
    | .parallel =>
      if tasks.length ≤ 1 then
        { requestedIsolation := input.requestedIsolation, selectedIsolation := .shared,
          reason := "auto isolation: parallel requested but <=1 task, shared is sufficient" }
      else if hasReadOnlyIntent && !hasWriteIntent then
        { requestedIsolation := input.requestedIsolation, selectedIsolation := .shared,
          reason := "auto isolation: parallel read-only tasks, shared preferred" }
      else
        { requestedIsolation := input.requestedIsolation, selectedIsolation := .worktree,
          reason := "auto isolation: parallel lane with potential writes, using worktree" }
    | .chain =>
      if hasWriteIntent || hasWriteCapableAgents then
        { requestedIsolation := input.requestedIsolation, selectedIsolation := .worktree,
          reason := "auto isolation: chained execution with write potential, using worktree" }
      else
        { requestedIsolation := input.requestedIsolation, selectedIsolation := .shared,
          reason := "auto isolation: chained read-only tasks, shared preferred" }
    | .single =>
      if hasWriteIntent && hasWriteCapableAgents then
        { requestedIsolation := input.requestedIsolation, selectedIsolation := .worktree,
          reason := "auto isolation: single task with explicit write intent, using worktree" }
      else
        { requestedIsolation := input.requestedIsolation, selectedIsolation := .shared,
          reason := "auto isolation: single task defaulting to shared" }

/-! ## phase-gates.ts — shared-context ledger

The JSONL ledger file is modelled as the list of its successfully parsed
entries in file (append) order; `FileSharedContextStore` methods become
functions on that list.  The random `entryId`/`taskId` values and `Date.now()`
are supplied as parameters. -/

/-- `SharedContextMode` (phase-gates.ts:159). -/
inductive SharedContextMode where
  | isolated
  | sharedRead
  | sharedWrite
deriving DecidableEq, Repr

/-- String form of a `SharedContextMode` as it appears in packets. -/
def SharedContextMode.text : SharedContextMode → String
  | .isolated => "isolated"
  | .sharedRead => "shared-read"
  | .sharedWrite => "shared-write"

/-- `TaskHandoffEnvelope` (phase-gates.ts:161-170). -/
structure TaskHandoffEnvelope where
  runId : String
  taskId : String
  parentTaskId : Option String := none
  agent : String
  task : String
  mode : TopologyMode
  depth : Int
  createdAtMs : Int
deriving DecidableEq, Repr

/-- Observation status `"success" | "error"` (phase-gates.ts:188). -/
inductive ObservationStatus where
  | success
  | error
deriving DecidableEq, Repr

/-- String form of an observation status. -/
def ObservationStatus.text : ObservationStatus → String
  | .success => "success"
  | .error => "error"

/-- `SharedContextEntry` (phase-gates.ts:178-199): dispatch, observation or
decision, each with the base fields `entryId`, `runId`, `createdAtMs`. -/
inductive SharedContextEntry where
  | dispatch (entryId runId : String) (createdAtMs : Int)
      (envelope : TaskHandoffEnvelope) (contextMode : SharedContextMode)
  | observation (entryId runId : String) (createdAtMs : Int)
      (taskId agent : String) (status : ObservationStatus) (summary : String)
  | decision (entryId runId : String) (createdAtMs : Int)
      (taskId coordinator decision : String)
deriving DecidableEq, Repr

/-- The `runId` base field of a ledger entry. -/
def SharedContextEntry.entryRunId : SharedContextEntry → String
  | .dispatch _ runId _ _ _ => runId
  | .observation _ runId _ _ _ _ _ => runId
  | .decision _ runId _ _ _ _ => runId

/-- `FileSharedContextStore.readRecent` (phase-gates.ts:255-274): clamp the
limit to 1..100, keep only entries of the store's run, and return the last
`boundedLimit` of them (JS `slice(-boundedLimit)`). -/
def readRecent (entries : List SharedContextEntry) (storeRunId : String)
    (limit : Int) : List SharedContextEntry :=
  let boundedLimit := max 1 (min 100 limit)
  let filtered := entries.filter (fun e => e.entryRunId == storeRunId)
  filtered.drop (filtered.length - boundedLimit.toNat)

/-- `FileSharedContextStore.appendDispatch` (phase-gates.ts:276-285): appends
unconditionally; the context mode is only recorded inside the entry. -/
def appendDispatch (entries : List SharedContextEntry) (storeRunId : String)
    (entryId : String) (nowMs : Int) (envelope : TaskHandoffEnvelope)
    (contextMode : SharedContextMode) : List SharedContextEntry :=
  entries ++ [SharedContextEntry.dispatch entryId storeRunId nowMs envelope contextMode]

/-- `FileSharedContextStore.appendObservation` (phase-gates.ts:287-298). -/
def appendObservation (entries : List SharedContextEntry) (storeRunId : String)
    (entryId : String) (nowMs : Int) (taskId agent : String)
    (status : ObservationStatus) (summary : String) : List SharedContextEntry :=
  entries ++ [SharedContextEntry.observation entryId storeRunId nowMs taskId agent status summary]

/-- `summarizeEntry` (phase-gates.ts:337-348). -/
def summarizeEntry : SharedContextEntry → String
  | .dispatch _ _ _ envelope _ =>
    "dispatch " ++ envelope.agent ++ " task:" ++ envelope.taskId
  | .observation _ _ _ taskId agent status summary =>
    status.text ++ " " ++ agent ++ " task:" ++ taskId ++ " " ++ summary.take 120
  | .decision _ _ _ taskId coordinator decision =>
    "decision " ++ coordinator ++ " task:" ++ taskId ++ " " ++ decision.take 120

/-- `buildSharedContextPacket` (phase-gates.ts:350-373): empty for isolated
mode, otherwise the `<shared_context>` block. -/
def buildSharedContextPacket (contextMode : SharedContextMode)
    (envelope : TaskHandoffEnvelope) (recentEntries : List SharedContextEntry) : String :=
  if contextMode = .isolated then ""
  else
    let lines := ["<shared_context>",
      "run_id: " ++ envelope.runId,
      "task_id: " ++ envelope.taskId]
    let lines := match envelope.parentTaskId with
      | some p => lines ++ ["parent_task_id: " ++ p]
      | none => lines
    let lines := lines ++ ["context_mode: " ++ contextMode.text, "recent_entries:"]
    let lines :=
      if recentEntries.isEmpty then lines ++ ["- none"]
      else lines ++ recentEntries.map (fun entry => "- " ++ summarizeEntry entry)
    let lines := lines ++ ["</shared_context>",
      "Use shared_context as the source of truth when relevant. Do not duplicate long excerpts."]
    String.intercalate "\n" lines

/-! ## worktree.ts — prepareDelegation -/

/-- Result of a `prepareDelegation` call together with the ledger it leaves
behind. -/
structure DelegationResult where
  ledger : List SharedContextEntry
  taskId : String
  executionTask : String
deriving DecidableEq, Repr

/-- `prepareDelegation` (worktree.ts:1691-1716).  `ledger` is the store's
current entry list, `storeRunId` the store's run id (`budget.runId`),
`contextMode`/`contextLimit` the shared-context configuration,
`budgetDepth` the parent budget's depth.  `taskId` (`createTaskId()`),
`entryId` and `nowMs` (`Date.now()`) are parameters standing for the
generated values.  The dispatch is appended unconditionally; the packet is
built from the entries read back after the append; a falsy (empty) packet
leaves the raw task unchanged. -/
def prepareDelegation (ledger : List SharedContextEntry) (storeRunId : String)
    (contextMode : SharedContextMode) (contextLimit : Int) (budgetDepth : Int)
    (agentName rawTask : String) (parentTaskId : Option String)
    (runMode : TopologyMode) (taskId entryId : String) (nowMs : Int) :
    DelegationResult :=
  let envelope : TaskHandoffEnvelope :=
    { runId := storeRunId
      taskId := taskId
      parentTaskId := parentTaskId
      agent := agentName
      task := rawTask
      mode := runMode
      depth := budgetDepth + 1
      createdAtMs := nowMs }
  let ledger1 := appendDispatch ledger storeRunId entryId nowMs envelope contextMode
  let packet := buildSharedContextPacket contextMode envelope (readRecent ledger1 storeRunId contextLimit)
  let executionTask := if packet = "" then rawTask else rawTask ++ "\n\n" ++ packet
  { ledger := ledger1, taskId := taskId, executionTask := executionTask }

/-! ## phase-gates.ts — gate state -/

/-- `PhaseGateStatus` (phase-gates.ts:1). -/
inductive PhaseGateStatus where
  | pending
  | passed
  | failed
  | skipped
deriving DecidableEq, Repr

/-- `SmokeCommandResult` (phase-gates.ts:3-9). -/
structure SmokeCommandResult where
  command : String
  exitCode : Int
  stdout : String
  stderr : String
  durationMs : Int
deriving DecidableEq, Repr

/-- `SmokeFixAttemptRecord` (phase-gates.ts:11-16). -/
structure SmokeFixAttemptRecord where
  attempt : Int
  agent : String
  outcome : ObservationStatus
  summary : String
deriving DecidableEq, Repr

/-- Gate key `"topology" | "smoke"` (phase-gates.ts:19). -/
inductive PhaseGateKey where
  | topology
  | smoke
deriving DecidableEq, Repr

/-- `PhaseGate` (phase-gates.ts:18-24). -/
structure PhaseGate where
  key : PhaseGateKey
  label : String
  required : Bool
  status : PhaseGateStatus
  detail : Option String := none
deriving DecidableEq, Repr

/-- `PhaseGateState` (phase-gates.ts:26-37). -/
structure PhaseGateState where
  phaseName : Option String := none
  requireSmoke : Bool
  smokeCommands : List String
  smokeMaxRetries : Int
  smokeMaxFixAttempts : Int
  smokeAttempts : Int
  smokeFixAttempts : Int
  smokeFixHistory : List SmokeFixAttemptRecord
  gates : List PhaseGate
  smokeResults : List SmokeCommandResult
deriving DecidableEq, Repr

/-- `PhaseGateInit` (phase-gates.ts:39-46). -/
structure PhaseGateInit where
  phaseName : Option String := none
  requireSmoke : Option Bool := none
  smokeCommands : Option (List String) := none
  topologySummary : String
  smokeMaxRetries : Option Int := none
  smokeMaxFixAttempts : Option Int := none
deriving DecidableEq, Repr

/-- `createPhaseGateState` (phase-gates.ts:48-84). -/
def createPhaseGateState (init : PhaseGateInit) : PhaseGateState :=
  let smokeCommands := ((init.smokeCommands.getD []).map jsTrim).filter
    (fun command => command.length > 0)
  let requireSmoke := init.requireSmoke.getD false
  let smokeRequired := requireSmoke || smokeCommands.length > 0
  let smokeMaxRetries := max 0 (init.smokeMaxRetries.getD 1)
  let smokeMaxFixAttempts := max 0 (init.smokeMaxFixAttempts.getD 2)
  { phaseName := init.phaseName
    requireSmoke := requireSmoke
    smokeCommands := smokeCommands
    smokeMaxRetries := smokeMaxRetries
    smokeMaxFixAttempts := smokeMaxFixAttempts
    smokeAttempts := 0
    smokeFixAttempts := 0
    smokeFixHistory := []
    smokeResults := []
    gates := [
      { key := .topology, label := "Topology decision", required := true,
        status := .passed, detail := some init.topologySummary },
      { key := .smoke, label := "Phase smoke", required := smokeRequired,
        status := if smokeRequired then .pending else .skipped,
        detail := some (if smokeRequired then
          toString smokeCommands.length ++ " command(s)" else "not configured") }] }

/-- `applySmokeResults` (phase-gates.ts:95-121). -/
def applySmokeResults (state : PhaseGateState)
    (smokeResults : List SmokeCommandResult) : PhaseGateState :=
  let failedResult := smokeResults.find? (fun result => result.exitCode != 0)
  let attemptsLabel := "attempt " ++ toString state.smokeAttempts
  let fixLabel := "fixes " ++ toString state.smokeFixAttempts ++ "/" ++
    toString state.smokeMaxFixAttempts
  { state with
    smokeResults := smokeResults
    gates := state.gates.map (fun gate =>
      if gate.key != .smoke then gate
      else if gate.required || smokeResults.length > 0 then
        match failedResult with
        | some failed =>
          { gate with
            status := .failed
            detail := some (failed.command ++ " (exit " ++ toString failed.exitCode ++
              ", " ++ attemptsLabel ++ ", " ++ fixLabel ++ ")") }
        | none =>
          { gate with
            status := .passed
            detail := some (toString smokeResults.length ++ " command(s) passed (" ++
              attemptsLabel ++ ", " ++ fixLabel ++ ")") }
      else gate) }

/-- `markSmokeSkipped` (phase-gates.ts:123-138). -/
def markSmokeSkipped (state : PhaseGateState) : PhaseGateState :=
  { state with
    gates := state.gates.map (fun gate =>
      if gate.key != .smoke then gate
      else if !gate.required then
        { gate with status := .skipped, detail := some "not required" }
      else gate) }

/-- `recordSmokeFixAttempt` (phase-gates.ts:140-146). -/
def recordSmokeFixAttempt (state : PhaseGateState)
    (entry : SmokeFixAttemptRecord) : PhaseGateState :=
  { state with
    smokeFixAttempts := max state.smokeFixAttempts entry.attempt
    smokeFixHistory := state.smokeFixHistory ++ [entry] }

/-! ## worktree.ts — phase smoke gate (runPhaseSmokeGate, worktree.ts:1718-1906)

The gate's external effects — running the smoke commands and running the fix
child — are abstracted by an oracle: `smokeResults k` is the result list of
the `k`-th smoke invocation of the run (the cumulative `smokeAttempts`
counter serves as the invocation index), `fixRunFails k` tells whether fix
attempt `k`'s child run failed, and `fixSummary k` is that run's (already
800-truncated) output summary.  Budget reservation for fix children and all
gate-state transitions are embedded from the source; ledger appends and the
fix child's task routing do not influence the gate outcome and are elided. -/

/-- Oracle for the gate's external effects. -/
structure SmokeGateOracle where
  smokeResults : Nat → List SmokeCommandResult
  fixRunFails : Nat → Bool
  fixSummary : Nat → String

/-- `runSmokeWithRetries` (worktree.ts:1728-1742) as a loop over the number
of remaining iterations (`smokeMaxRetries + 1` at the top call).  Returns the
updated state, the `passed` flag and the failing result of the last
iteration (`none` initially, mirroring the JS `let failed;`). -/
def runSmokeRetryLoop (oracle : SmokeGateOracle) :
    Nat → PhaseGateState → Option SmokeCommandResult →
    PhaseGateState × Bool × Option SmokeCommandResult
  | 0, state, lastFailed => (state, false, lastFailed)
  | iters + 1, state, _ =>
    let results := oracle.smokeResults state.smokeAttempts.toNat
    let state1 := { state with smokeAttempts := state.smokeAttempts + 1 }
    let state2 := applySmokeResults state1 results
    match results.find? (fun result => result.exitCode != 0) with
    | none => (state2, true, none)
    | some failed => runSmokeRetryLoop oracle iters state2 (some failed)

/-- The remediation prompt (worktree.ts:1802-1812): the item list filtered of
empty strings (`filter(Boolean)`) joined with blank lines. -/
def buildRemediationTask (phaseName : Option String)
    (failed : Option SmokeCommandResult) (fixAttempt maxFixAttempts : Int) : String :=
  let items : List String := [
    "Phase smoke gate failed. Apply a minimal fix and stop.",
    "Phase: " ++ phaseName.getD "unspecified",
    (match failed with
     | some f => "Failing command: " ++ f.command ++ " (exit " ++ toString f.exitCode ++ ")"
     | none => "Failing command: unknown"),
    (match failed with
     | some f => if f.stderr != "" then "stderr:\n" ++ f.stderr.take 1500 else ""
     | none => ""),
    (match failed with
     | some f => if f.stdout != "" then "stdout:\n" ++ f.stdout.take 800 else ""
     | none => ""),
    "Fix pass: " ++ toString fixAttempt ++ "/" ++ toString maxFixAttempts,
    "Do not refactor unrelated files. Preserve existing behavior."]
  String.intercalate "\n\n" (items.filter (fun s => s != ""))

/-- Outcome of the smoke gate: final budget, final gate state, `ok` flag and
message. -/
structure SmokeGateOutcome where
  budget : ExecutionBudget
  state : PhaseGateState
  ok : Bool
  message : Option String := none
deriving Repr

/-- The bounded fix loop (worktree.ts:1785-1906), iterating over the
remaining attempt numbers (`[1, …, smokeMaxFixAttempts]` at the top call).
Mirrors the source per attempt: budget-exhaustion check, remediation prompt,
budget reservation (which can fail), the fix child run, the post-fix smoke
rerun, and the `recordSmokeFixAttempt` bookkeeping of every path. -/
def smokeFixLoop (oracle : SmokeGateOracle) (fixAgentName : String)
    (fixNested : Bool) (initialFailed : Option SmokeCommandResult) :
    List Int → ExecutionBudget → PhaseGateState → SmokeGateOutcome
  | [], budget, state =>
    let terminalFailure :=
      (state.smokeResults.find? (fun result => result.exitCode != 0)).orElse
        (fun _ => initialFailed)
    { budget := budget, state := state, ok := false,
      message := some (match terminalFailure with
        | some f =>
          "Phase smoke gate failed after " ++ toString state.smokeFixAttempts ++ "/" ++
            toString state.smokeMaxFixAttempts ++ " fix attempts: " ++ f.command ++
            " (exit " ++ toString f.exitCode ++ ")."
        | none =>
          "Phase smoke gate failed after " ++ toString state.smokeFixAttempts ++ "/" ++
            toString state.smokeMaxFixAttempts ++ " fix attempts.") }
  | fixAttempt :: rest, budget, state =>
    let failed :=
      (state.smokeResults.find? (fun result => result.exitCode != 0)).orElse
        (fun _ => initialFailed)
    if budget.remainingTokens ≤ 0 then
      let state1 := recordSmokeFixAttempt state
        { attempt := fixAttempt, agent := fixAgentName, outcome := .error,
          summary := "budget exhausted before fix attempt" }
      { budget := budget, state := state1, ok := false,
        message := some ("Phase smoke gate failed and fix loop exhausted budget before attempt " ++
          toString fixAttempt ++ ".") }
    else
      let remediationTask := buildRemediationTask state.phaseName failed fixAttempt
        state.smokeMaxFixAttempts
      match reserveChildBudget budget fixAgentName remediationTask 0 fixNested with
      | (budget1, Except.error errorMessage) =>
        let state1 := recordSmokeFixAttempt state
          { attempt := fixAttempt, agent := fixAgentName, outcome := .error,
            summary := "fix attempt blocked: " ++ errorMessage }
        { budget := budget1, state := state1, ok := false,
          message := some ("Phase smoke fix attempt blocked: " ++ errorMessage) }
      | (budget1, Except.ok _) =>
        if oracle.fixRunFails fixAttempt.toNat then
          let state1 := recordSmokeFixAttempt state
            { attempt := fixAttempt, agent := fixAgentName, outcome := .error,
              summary := "fix run failed: " ++ (oracle.fixSummary fixAttempt.toNat).take 180 }
          smokeFixLoop oracle fixAgentName fixNested initialFailed rest budget1 state1
        else
          match runSmokeRetryLoop oracle (state.smokeMaxRetries + 1).toNat state none with
          | (state2, true, _) =>
            let state3 := recordSmokeFixAttempt state2
              { attempt := fixAttempt, agent := fixAgentName, outcome := .success,
                summary := "fix applied and smoke gate passed" }
            { budget := budget1, state := state3, ok := true,
              message := some ("Phase smoke passed after fix attempt " ++
                toString fixAttempt ++ ".") }
          | (state2, false, _) =>
            let postFixFailed := state2.smokeResults.find? (fun result => result.exitCode != 0)
            let state3 := recordSmokeFixAttempt state2
              { attempt := fixAttempt, agent := fixAgentName, outcome := .error,
                summary := match postFixFailed with
                  | some f => "smoke still failing: " ++ f.command ++ " (exit " ++
                      toString f.exitCode ++ ")"
                  | none => "smoke still failing after fix" }
            smokeFixLoop oracle fixAgentName fixNested initialFailed rest budget1 state3

/-- Message of the "no fix attempts available" terminal branch
(worktree.ts:1775-1783). -/
def noFixAttemptsMessage (initialFailed : Option SmokeCommandResult) : String :=
  match initialFailed with
  | some f => "Phase smoke gate failed: " ++ f.command ++ " (exit " ++
      toString f.exitCode ++ "). No fix attempts available."
  | none => "Phase smoke gate failed and no fix attempts are available."

/-- `runPhaseSmokeGate` (worktree.ts:1718-1906).  `fixAgent` stands for the
result of `getFixAgent()` together with `canNestAgent` of that agent; `none`
models no candidate fix agent. -/
def runPhaseSmokeGate (oracle : SmokeGateOracle)
    (fixAgent : Option (String × Bool)) (budget : ExecutionBudget)
    (state : PhaseGateState) : SmokeGateOutcome :=
  if state.smokeCommands.length = 0 then
    { budget := budget, state := markSmokeSkipped state, ok := true }
  else
    match runSmokeRetryLoop oracle (state.smokeMaxRetries + 1).toNat state none with
    | (state1, true, _) =>
      let retryCount := max 0 (state1.smokeAttempts - 1)
      if retryCount > 0 then
        { budget := budget, state := state1, ok := true,
          message := some ("Phase smoke passed after " ++ toString retryCount ++
            " retry attempt(s).") }
      else { budget := budget, state := state1, ok := true }
    | (state1, false, initialFailed) =>
      if !state1.requireSmoke then
        match initialFailed with
        | none => { budget := budget, state := state1, ok := true }
        | some f =>
          { budget := budget, state := state1, ok := true,
            message := some ("Phase smoke warning: " ++ f.command ++ " (exit " ++
              toString f.exitCode ++ ")") }
      else
        match fixAgent with
        | none =>
          { budget := budget, state := state1, ok := false,
            message := some (noFixAttemptsMessage initialFailed) }
        | some (fixAgentName, fixNested) =>
          if state1.smokeMaxFixAttempts = 0 then
            { budget := budget, state := state1, ok := false,
              message := some (noFixAttemptsMessage initialFailed) }
          else
            smokeFixLoop oracle fixAgentName fixNested initialFailed
              ((List.range state1.smokeMaxFixAttempts.toNat).map (fun k : Nat => (k : Int) + 1))
              budget state1

/-! ## worktree.ts — chain-mode budget logic -/

/-- The chain-mode entry budget check (worktree.ts:1951-1960): before any
spawn, the whole chain must fit in the remaining tokens. -/
def chainBudgetGuard (budget : ExecutionBudget) (chainLength : Nat) : Option String :=
  if budget.remainingTokens < chainLength then
    some ("Insufficient subagent budget for chain: need at least " ++
      toString (chainLength : Int) ++ ", have " ++ toString budget.remainingTokens ++ ".")
  else none

/-- The per-step reservation of chain mode (worktree.ts:2006-2028).
`stepIndex` is the 0-based loop index `i`, `remainingDirectSteps` the number
of chain steps after this one.  The step first requires one token for itself
plus one per later step, then reserves everything above that minimum for the
child's own descendants. -/
def chainStepReservation (budget : ExecutionBudget) (agent task : String)
    (remainingDirectSteps : Nat) (stepIndex : Nat) (allowNested : Bool) :
    ExecutionBudget × Except String ChildProcessBudget :=
  let minRequired : Int := (remainingDirectSteps : Int) + 1
  if budget.remainingTokens < minRequired then
    (budget, Except.error ("Subagent budget exhausted at chain step " ++
      toString (stepIndex + 1) ++ ": need at least " ++ toString minRequired ++
      ", have " ++ toString budget.remainingTokens ++ "."))
  else
    reserveChildBudget budget agent task (budget.remainingTokens - minRequired) allowNested

/-! ## Helper lemmas -/

/-- Dropping a while-run from a list keeps a member that fails the test. -/
theorem exists_not_mem_dropWhile {α : Type} (p : α → Bool) (l : List α) (c : α)
    (hc : c ∈ l) (hp : p c = false) : ∃ x ∈ l.dropWhile p, p x = false := by
  induction l with
  | nil => cases hc
  | cons a rest ih =>
    by_cases ha : p a = true
    · simp only [List.dropWhile_cons, ha, if_true]
      rcases List.mem_cons.mp hc with rfl | hr
      · rw [hp] at ha; cases ha
      · exact ih hr
    · simp only [List.dropWhile_cons, ha, if_false]
      exact ⟨a, List.mem_cons_self a rest, Bool.eq_false_iff.mpr ha⟩

/-- A string one of whose characters is not whitespace trims to something
non-empty. -/
theorem jsTrim_length_pos (s : String) (c : Char) (hc : c ∈ s.data)
    (hw : c.isWhitespace = false) : (jsTrim s).length > 0 := by
  obtain ⟨x, hx, hxw⟩ := exists_not_mem_dropWhile Char.isWhitespace s.data c hc hw
  obtain ⟨y, hy, _⟩ := exists_not_mem_dropWhile Char.isWhitespace
    (s.data.dropWhile Char.isWhitespace).reverse x (List.mem_reverse.mpr hx) hxw
  show (((s.data.dropWhile Char.isWhitespace).reverse.dropWhile Char.isWhitespace).reverse).length > 0
  rw [gt_iff_lt, List.length_pos]
  intro hnil
  rw [List.reverse_eq_nil_iff] at hnil
  rw [hnil] at hy
  cases hy

/-- The fingerprint of any agent/task pair trims to something non-empty:
its text contains the literal `::` separator. -/
theorem makeFingerprint_jsTrim_length_pos (agent task : String) :
    (jsTrim (makeFingerprint agent task)).length > 0 := by
  apply jsTrim_length_pos (makeFingerprint agent task) ':'
  · show ':' ∈ (jsToLower (jsTrim agent) ++ "::" ++ normalizeTask task).data
    rw [String.data_append, String.data_append]
    exact List.mem_append_left _ (List.mem_append_right _ (by simp [String.data]))
  · rfl

/-- Membership in an accumulator is preserved by the `parseFingerprintSet`
fold. -/
theorem mem_foldl_fpInsert_of_mem (items : List String) (acc : List String)
    (x : String) (h : x ∈ acc) : x ∈ items.foldl fpInsert acc := by
  induction items generalizing acc with
  | nil => simpa using h
  | cons i rest ih =>
    simp only [List.foldl_cons]
    apply ih
    unfold fpInsert
    split
    · split
      · exact h
      · exact List.mem_append_left _ h
    · exact h

/-- A non-blank member of the decoded array survives `parseFingerprintSet`. -/
theorem mem_foldl_fpInsert (items : List String) (acc : List String) (x : String)
    (hx : x ∈ items) (hne : (jsTrim x).length > 0) : x ∈ items.foldl fpInsert acc := by
  induction items generalizing acc with
  | nil => cases hx
  | cons i rest ih =>
    simp only [List.foldl_cons]
    rcases List.mem_cons.mp hx with rfl | hr
    · apply mem_foldl_fpInsert_of_mem
      unfold fpInsert
      rw [if_pos hne]
      split
      · next hcon => simpa using hcon
      · exact List.mem_append_right _ (List.mem_singleton.mpr rfl)
    · exact ih _ hr

/-- Shape of a successful `reserveChildBudget`: the exact updated parent and
child values. -/
theorem reserveChildBudget_ok (b : ExecutionBudget) (a t : String) (d : Int)
    (n : Bool) (b' : ExecutionBudget) (c : ChildProcessBudget)
    (h : reserveChildBudget b a t d n = (b', Except.ok c)) :
    b' = { b with
      remainingTokens := b.remainingTokens - (1 + max 0 d)
      fingerprints := b.fingerprints ++ [makeFingerprint a t] } ∧
    c = { runId := b.runId, nextDepth := b.depth + 1, maxDepth := b.maxDepth,
          rootStartedAtMs := b.rootStartedAtMs, deadlineAtMs := b.deadlineAtMs,
          remainingTokens := max 0 d,
          fingerprints := b.fingerprints ++ [makeFingerprint a t],
          canSpawnChildren := n } := by
  unfold reserveChildBudget at h
  dsimp only at h
  split at h
  · simp at h
  · split at h
    · simp at h
    · simp only [Prod.mk.injEq, Except.ok.injEq] at h
      exact ⟨h.1.symm, h.2.symm⟩

/-! ## Claim C1 -/

/-- C1: when `reserveChildBudget(budget, agent, task, d, allowNested)`
succeeds it deducts exactly `1 + max(0, d)` from the parent's remaining
tokens, appends the fingerprint `lower(trim(agent)) ++ "::" ++
normalize(task)` to the parent's fingerprint set, and returns a child budget
with `remainingTokens = max(0, d)`, `nextDepth = depth + 1`,
`canSpawnChildren = allowNested`, and the parent's `runId`, `maxDepth`,
`rootStartedAtMs` and `deadlineAtMs`. -/
theorem reserveChildBudget_success_spec (b : ExecutionBudget) (a t : String)
    (d : Int) (n : Bool) (b' : ExecutionBudget) (c : ChildProcessBudget)
    (h : reserveChildBudget b a t d n = (b', Except.ok c)) :
    b'.remainingTokens = b.remainingTokens - (1 + max 0 d) ∧
    b'.fingerprints = b.fingerprints ++ [makeFingerprint a t] ∧
    c.remainingTokens = max 0 d ∧
    c.nextDepth = b.depth + 1 ∧
    c.canSpawnChildren = n ∧
    c.runId = b.runId ∧
    c.maxDepth = b.maxDepth ∧
    c.rootStartedAtMs = b.rootStartedAtMs ∧
    c.deadlineAtMs = b.deadlineAtMs := by
  unfold reserveChildBudget at h
  dsimp only at h
  split at h
  · simp at h
  · split at h
    · simp at h
    · simp only [Prod.mk.injEq, Except.ok.injEq] at h
      obtain ⟨hb, hc⟩ := h
      subst hb
      subst hc
      exact ⟨rfl, rfl, rfl, rfl, rfl, rfl, rfl, rfl, rfl⟩

/-- Concrete parent budget for the C1 witness. -/
def witnessParentC1 : ExecutionBudget :=
  { runId := "r1", depth := 0, maxDepth := 2, rootStartedAtMs := 5,
    deadlineAtMs := 600005, remainingTokens := 16, fingerprints := [],
    canSpawnChildren := true }

/-- Expected updated parent for the C1 witness. -/
def witnessParentC1' : ExecutionBudget :=
  { runId := "r1", depth := 0, maxDepth := 2, rootStartedAtMs := 5,
    deadlineAtMs := 600005, remainingTokens := 12,
    fingerprints := ["dev::fix the bug"], canSpawnChildren := true }

/-- Expected child for the C1 witness. -/
def witnessChildC1 : ChildProcessBudget :=
  { runId := "r1", nextDepth := 1, maxDepth := 2, rootStartedAtMs := 5,
    deadlineAtMs := 600005, remainingTokens := 3,
    fingerprints := ["dev::fix the bug"], canSpawnChildren := true }

/-- Concrete witness for C1. -/
theorem reserveChildBudget_success_spec_witness :
    reserveChildBudget witnessParentC1 "Dev" "Fix  the bug" 3 true =
      (witnessParentC1', Except.ok witnessChildC1) ∧
    witnessParentC1'.remainingTokens = witnessParentC1.remainingTokens - (1 + max 0 3) ∧
    witnessChildC1.remainingTokens = max 0 3 :=
  ⟨rfl, (reserveChildBudget_success_spec witnessParentC1 "Dev" "Fix  the bug" 3 true
      witnessParentC1' witnessChildC1 rfl).1,
    (reserveChildBudget_success_spec witnessParentC1 "Dev" "Fix  the bug" 3 true
      witnessParentC1' witnessChildC1 rfl).2.2.1⟩

/-! ## Claim C2 -/

/-- C2: `reserveChildBudget` fails exactly when the fingerprint of the
agent/task pair is already recorded or the remaining tokens are below
`1 + max(0, d)`; on failure the parent budget is returned unchanged; and a
successful reservation records its fingerprint so that reserving the same
pair again from the updated budget always fails. -/
theorem reserveChildBudget_error_spec (b : ExecutionBudget) (a t : String)
    (d : Int) (n : Bool) :
    ((∃ e, (reserveChildBudget b a t d n).2 = Except.error e) ↔
      (makeFingerprint a t ∈ b.fingerprints ∨ b.remainingTokens < 1 + max 0 d)) ∧
    ((∃ e, (reserveChildBudget b a t d n).2 = Except.error e) →
      (reserveChildBudget b a t d n).1 = b) ∧
    (∀ c, (reserveChildBudget b a t d n).2 = Except.ok c →
      ∀ d₂ n₂, ∃ e,
        (reserveChildBudget (reserveChildBudget b a t d n).1 a t d₂ n₂).2 = Except.error e) := by
  by_cases hfp : makeFingerprint a t ∈ b.fingerprints
  · refine ⟨⟨fun _ => Or.inl hfp, fun _ => ?_⟩, fun _ => ?_, fun c hc => ?_⟩
    · exact ⟨"Blocked recursive loop for " ++ a ++ ": duplicate delegated task fingerprint.", by simp [reserveChildBudget, hfp]⟩
    · simp [reserveChildBudget, hfp]
    · simp [reserveChildBudget, hfp] at hc
  · by_cases hlt : b.remainingTokens < 1 + max 0 d
    · refine ⟨⟨fun _ => Or.inr hlt, fun _ => ?_⟩, fun _ => ?_, fun c hc => ?_⟩
      · exact ⟨"Subagent budget exceeded: requires " ++ toString (1 + max 0 d) ++
          " token(s), only " ++ toString b.remainingTokens ++ " remaining.",
          by simp [reserveChildBudget, hfp, hlt]⟩
      · simp [reserveChildBudget, hfp, hlt]
      · simp [reserveChildBudget, hfp, hlt] at hc
    · refine ⟨⟨fun he => ?_, fun hor => ?_⟩, fun he => ?_, fun c _ d₂ n₂ => ?_⟩
      · obtain ⟨e, he⟩ := he
        simp [reserveChildBudget, hfp, hlt] at he
      · rcases hor with hor | hor
        · exact absurd hor hfp
        · exact absurd hor hlt
      · obtain ⟨e, he⟩ := he
        simp [reserveChildBudget, hfp, hlt] at he
      · have h1 : (reserveChildBudget b a t d n).1.fingerprints =
            b.fingerprints ++ [makeFingerprint a t] := by
          simp [reserveChildBudget, hfp, hlt]
        have hmem : makeFingerprint a t ∈ (reserveChildBudget b a t d n).1.fingerprints := by
          rw [h1]
          exact List.mem_append_right _ (List.mem_singleton.mpr rfl)
        generalize (reserveChildBudget b a t d n).1 = b2 at hmem
        exact ⟨"Blocked recursive loop for " ++ a ++ ": duplicate delegated task fingerprint.",
          by simp [reserveChildBudget, hmem]⟩

/-- Concrete witness for C2 (both failure modes and the loop-block after a
success). -/
theorem reserveChildBudget_error_spec_witness :
    (∃ e, (reserveChildBudget
      { runId := "r1", depth := 0, maxDepth := 2, rootStartedAtMs := 0,
        deadlineAtMs := 1, remainingTokens := 2, fingerprints := [],
        canSpawnChildren := true } "dev" "task" 5 true).2 = Except.error e) := by
  have h := reserveChildBudget_error_spec
    { runId := "r1", depth := 0, maxDepth := 2, rootStartedAtMs := 0,
      deadlineAtMs := 1, remainingTokens := 2, fingerprints := [],
      canSpawnChildren := true } "dev" "task" 5 true
  exact h.1.mpr (Or.inr (by decide))

/-! ## Claim C9 -/

/-- C9: a successful reservation hands the child a fingerprint list holding
the child's own fingerprint together with every fingerprint previously
recorded by the parent, and any budget reconstructed from that serialized
list through the environment (`parseFingerprintSet` inside
`initExecutionBudget`) can never reserve the same agent/task pair again. -/
theorem childBudget_fingerprint_closure (b : ExecutionBudget) (a t : String)
    (d : Int) (n : Bool) (b' : ExecutionBudget) (c : ChildProcessBudget)
    (h : reserveChildBudget b a t d n = (b', Except.ok c)) :
    makeFingerprint a t ∈ c.fingerprints ∧
    (∀ fp ∈ b.fingerprints, fp ∈ c.fingerprints) ∧
    (∀ (env : SubagentEnv) (nowMs : Int) (defaults : GuardrailDefaults)
      (freshRunId : String) (d₂ : Int) (n₂ : Bool),
      env.fingerprints = some c.fingerprints →
      ∃ e, (reserveChildBudget (initExecutionBudget env nowMs defaults freshRunId) a t d₂ n₂).2
        = Except.error e) := by
  have hcfp : c.fingerprints = b.fingerprints ++ [makeFingerprint a t] := by
    unfold reserveChildBudget at h
    dsimp only at h
    split at h
    · simp at h
    · split at h
      · simp at h
      · simp only [Prod.mk.injEq, Except.ok.injEq] at h
        rw [← h.2]
  refine ⟨?_, ?_, ?_⟩
  · rw [hcfp]
    exact List.mem_append_right _ (List.mem_singleton.mpr rfl)
  · intro fp hfp
    rw [hcfp]
    exact List.mem_append_left _ hfp
  · intro env nowMs defaults freshRunId d₂ n₂ henv
    have hmem : makeFingerprint a t ∈
        (initExecutionBudget env nowMs defaults freshRunId).fingerprints := by
      show makeFingerprint a t ∈ parseFingerprintSet env.fingerprints
      rw [henv]
      show makeFingerprint a t ∈ c.fingerprints.foldl fpInsert []
      apply mem_foldl_fpInsert
      · rw [hcfp]
        exact List.mem_append_right _ (List.mem_singleton.mpr rfl)
      · exact makeFingerprint_jsTrim_length_pos a t
    exact ⟨"Blocked recursive loop for " ++ a ++ ": duplicate delegated task fingerprint.", by simp [reserveChildBudget, hmem]⟩

/-- Concrete witness for C9. -/
theorem childBudget_fingerprint_closure_witness :
    ∃ e, (reserveChildBudget
      (initExecutionBudget
        { runId := some "r1", depth := some 1, maxDepth := some 2,
          rootStartedAt := some 0, deadlineAt := some 9,
          remainingTokens := some 4, fingerprints := some ["old::fp", "dev::go"],
          canSpawnChildren := some "1" } 0 DEFAULT_GUARDRAIL_DEFAULTS "fresh")
      "Dev" " go " 0 true).2 = Except.error e := by
  have h := childBudget_fingerprint_closure
    { runId := "r1", depth := 0, maxDepth := 2, rootStartedAtMs := 0,
      deadlineAtMs := 9, remainingTokens := 8, fingerprints := ["old::fp"],
      canSpawnChildren := true } "Dev" " go " 0 true
    { runId := "r1", depth := 0, maxDepth := 2, rootStartedAtMs := 0,
      deadlineAtMs := 9, remainingTokens := 7,
      fingerprints := ["old::fp", "dev::go"], canSpawnChildren := true }
    { runId := "r1", nextDepth := 1, maxDepth := 2, rootStartedAtMs := 0,
      deadlineAtMs := 9, remainingTokens := 0,
      fingerprints := ["old::fp", "dev::go"], canSpawnChildren := true }
    rfl
  exact h.2.2
    { runId := some "r1", depth := some 1, maxDepth := some 2,
      rootStartedAt := some 0, deadlineAt := some 9,
      remainingTokens := some 4, fingerprints := some ["old::fp", "dev::go"],
      canSpawnChildren := some "1" } 0 DEFAULT_GUARDRAIL_DEFAULTS "fresh" 0 true rfl

/-! ## Claim C3 -/

/-- A requested one-task parallel plan whose task text contains
`\x7bprevious\x7d`, under policy auto with recommendation single. -/
def parallelPreviousInput : ExecutionPlanInput :=
  { requestedMode := .parallel, policy := .auto, recommendedMode := .single,
    tasks := some [{ agent := "helper", task := "Summarize \x7bprevious\x7d results" }] }

/-- C3 counterexample: the claim says parallel converts to single "only when
… that task's text contains no `\x7bprevious\x7d` dependency", but
`buildExecutionPlan` converts a one-task parallel plan to single without any
`\x7bprevious\x7d` check — here the single task does contain
`\x7bprevious\x7d` and the conversion still happens (and no "no safe
conversion" note is recorded). -/
theorem buildExecutionPlan_parallel_single_previous_cex :
    (buildExecutionPlan parallelPreviousInput).mode = TopologyMode.single ∧
    taskHasPrevious "Summarize \x7bprevious\x7d results" = true ∧
    (buildExecutionPlan parallelPreviousInput).notes =
      ["auto mode: switched parallel -> single (single task)"] := by
  refine ⟨by decide, by decide, by decide⟩

/-- C3 (amended): under policy auto with recommendation single, a requested
parallel plan is converted to single exactly when one task remains (with no
`\x7bprevious\x7d` condition), and a requested chain is converted to single
exactly when one step remains and that step's text contains no
`\x7bprevious\x7d`; in all other cases the requested mode is kept and the
"no safe conversion" note is recorded. -/
theorem buildExecutionPlan_auto_single_conversion (input : ExecutionPlanInput)
    (hpol : input.policy = .auto) (hrec : input.recommendedMode = .single) :
    (input.requestedMode = .parallel →
      (((buildExecutionPlan input).mode = .single ↔ (input.tasks.getD []).length = 1) ∧
       ((input.tasks.getD []).length ≠ 1 →
        (buildExecutionPlan input).mode = .parallel ∧
        "auto mode: no safe topology conversion available; using requested mode" ∈
          (buildExecutionPlan input).notes))) ∧
    (input.requestedMode = .chain →
      (((buildExecutionPlan input).mode = .single ↔
        (∃ first, input.chain.getD [] = [first] ∧ taskHasPrevious first.task = false)) ∧
       ((¬ ∃ first, input.chain.getD [] = [first] ∧ taskHasPrevious first.task = false) →
        (buildExecutionPlan input).mode = .chain ∧
        "auto mode: no safe topology conversion available; using requested mode" ∈
          (buildExecutionPlan input).notes))) := by
  constructor
  · intro hreq
    by_cases hlen : (input.tasks.getD []).length = 1
    · constructor
      · constructor
        · intro _; exact hlen
        · intro _
          simp [buildExecutionPlan, buildExecutionPlanAuto, normalizeRequestedPlan,
            hpol, hrec, hreq, hlen]
      · intro hne; exact absurd hlen hne
    · constructor
      · constructor
        · intro hmode
          exfalso
          apply hlen
          by_contra hne
          rw [show (buildExecutionPlan input).mode = TopologyMode.parallel from by
            simp [buildExecutionPlan, buildExecutionPlanAuto, normalizeRequestedPlan,
              hpol, hrec, hreq, hne]] at hmode
          cases hmode
        · intro h; exact absurd h hlen
      · intro _
        constructor
        · simp [buildExecutionPlan, buildExecutionPlanAuto, normalizeRequestedPlan,
            hpol, hrec, hreq, hlen]
        · simp [buildExecutionPlan, buildExecutionPlanAuto, normalizeRequestedPlan,
            hpol, hrec, hreq, hlen]
  · intro hreq
    rcases hl : input.chain.getD [] with _ | ⟨first, rest⟩
    · constructor
      · constructor
        · intro hmode
          exfalso
          rw [show (buildExecutionPlan input).mode = TopologyMode.chain from by
            simp [buildExecutionPlan, buildExecutionPlanAuto, normalizeRequestedPlan,
              hpol, hrec, hreq, hl]] at hmode
          cases hmode
        · rintro ⟨first, hfirst, -⟩
          cases hfirst
      · intro _
        refine ⟨?_, ?_⟩ <;>
          simp [buildExecutionPlan, buildExecutionPlanAuto, normalizeRequestedPlan,
            hpol, hrec, hreq, hl]
    · rcases rest with _ | ⟨second, rest2⟩
      · by_cases hp : taskHasPrevious first.task = true
        · constructor
          · constructor
            · intro hmode
              exfalso
              rw [show (buildExecutionPlan input).mode = TopologyMode.chain from by
                simp [buildExecutionPlan, buildExecutionPlanAuto, normalizeRequestedPlan,
                  hpol, hrec, hreq, hl, hp]] at hmode
              cases hmode
            · rintro ⟨first2, hfirst2, hp2⟩
              injection hfirst2 with h1 _
              rw [← h1] at hp2
              rw [hp] at hp2
              cases hp2
          · intro _
            refine ⟨?_, ?_⟩ <;>
              simp [buildExecutionPlan, buildExecutionPlanAuto, normalizeRequestedPlan,
                hpol, hrec, hreq, hl, hp]
        · have hp' : taskHasPrevious first.task = false := Bool.eq_false_iff.mpr hp
          constructor
          · constructor
            · intro _; exact ⟨first, rfl, hp'⟩
            · intro _
              simp [buildExecutionPlan, buildExecutionPlanAuto, normalizeRequestedPlan,
                hpol, hrec, hreq, hl, hp']
          · intro hne
            exact absurd ⟨first, rfl, hp'⟩ hne
      · constructor
        · constructor
          · intro hmode
            exfalso
            rw [show (buildExecutionPlan input).mode = TopologyMode.chain from by
              simp [buildExecutionPlan, buildExecutionPlanAuto, normalizeRequestedPlan,
                hpol, hrec, hreq, hl]] at hmode
            cases hmode
          · rintro ⟨first2, hfirst2, -⟩
            injection hfirst2 with _ h2
            cases h2
        · intro _
          refine ⟨?_, ?_⟩ <;>
            simp [buildExecutionPlan, buildExecutionPlanAuto, normalizeRequestedPlan,
              hpol, hrec, hreq, hl]

/-- Concrete witness for the amended C3. -/
theorem buildExecutionPlan_auto_single_conversion_witness :
    (buildExecutionPlan
      { requestedMode := .chain, policy := .auto, recommendedMode := .single,
        chain := some [{ agent := "a", task := "inspect logs" }] }).mode =
      TopologyMode.single :=
  ((buildExecutionPlan_auto_single_conversion
    { requestedMode := .chain, policy := .auto, recommendedMode := .single,
      chain := some [{ agent := "a", task := "inspect logs" }] }
    rfl rfl).2 rfl).1.mpr ⟨{ agent := "a", task := "inspect logs" }, rfl, by decide⟩

/-! ## Claim C7 -/

/-- C7: under policy auto with recommendation parallel, a requested chain is
converted to a parallel plan over the same task items exactly when no step
text contains `\x7bprevious\x7d` and the chain has more than one step;
otherwise the plan stays chain (with the "no safe conversion" note). -/
theorem buildExecutionPlan_auto_chain_to_parallel (input : ExecutionPlanInput)
    (hpol : input.policy = .auto) (hrec : input.recommendedMode = .parallel)
    (hreq : input.requestedMode = .chain) :
    (((buildExecutionPlan input).mode = .parallel) ↔
      ((input.chain.getD []).any (fun item => taskHasPrevious item.task) = false ∧
       (input.chain.getD []).length > 1)) ∧
    ((buildExecutionPlan input).mode = .parallel →
      (buildExecutionPlan input).tasks = some (input.chain.getD [])) ∧
    ((buildExecutionPlan input).mode ≠ .parallel →
      (buildExecutionPlan input).mode = .chain ∧
      (buildExecutionPlan input).chain = some (input.chain.getD []) ∧
      "auto mode: no safe topology conversion available; using requested mode" ∈
        (buildExecutionPlan input).notes) := by
  by_cases hprev : (input.chain.getD []).any (fun item => taskHasPrevious item.task) = false
  · by_cases hlen : (input.chain.getD []).length > 1
    · have hplan : buildExecutionPlan input =
          { mode := .parallel, tasks := some (input.chain.getD []),
            notes := ["auto mode: switched chain -> parallel (no \x7bprevious\x7d dependencies)"] } := by
        simp [buildExecutionPlan, buildExecutionPlanAuto, normalizeRequestedPlan,
          hpol, hrec, hreq, hprev, hlen]
      rw [hplan]
      exact ⟨⟨fun _ => ⟨hprev, hlen⟩, fun _ => rfl⟩, fun _ => rfl, fun hne => absurd rfl hne⟩
    · have hplan : buildExecutionPlan input =
          { mode := .chain, chain := some (input.chain.getD []),
            notes := ["auto mode: no safe topology conversion available; using requested mode"] } := by
        simp [buildExecutionPlan, buildExecutionPlanAuto, normalizeRequestedPlan,
          hpol, hrec, hreq, hprev, hlen]
      rw [hplan]
      refine ⟨⟨fun h => ?_, fun h => absurd h.2 hlen⟩, fun h => ?_, fun _ => ⟨rfl, rfl, ?_⟩⟩
      · cases h
      · cases h
      · exact List.mem_singleton.mpr rfl
  · have hprev' : (input.chain.getD []).any (fun item => taskHasPrevious item.task) = true :=
      by simpa using hprev
    have hplan : buildExecutionPlan input =
        { mode := .chain, chain := some (input.chain.getD []),
          notes := ["auto mode: no safe topology conversion available; using requested mode"] } := by
      simp [buildExecutionPlan, buildExecutionPlanAuto, normalizeRequestedPlan,
        hpol, hrec, hreq, hprev']
    rw [hplan]
    refine ⟨⟨fun h => ?_, fun h => absurd h.1 hprev⟩, fun h => ?_, fun _ => ⟨rfl, rfl, ?_⟩⟩
    · cases h
    · cases h
    · exact List.mem_singleton.mpr rfl

/-- Concrete witness for C7: a two-step chain without `\x7bprevious\x7d`
converts to parallel. -/
theorem buildExecutionPlan_auto_chain_to_parallel_witness :
    (buildExecutionPlan
      { requestedMode := .chain, policy := .auto, recommendedMode := .parallel,
        chain := some [{ agent := "a", task := "scan files" },
                       { agent := "b", task := "scan docs" }] }).mode =
      TopologyMode.parallel :=
  (buildExecutionPlan_auto_chain_to_parallel
    { requestedMode := .chain, policy := .auto, recommendedMode := .parallel,
      chain := some [{ agent := "a", task := "scan files" },
                     { agent := "b", task := "scan docs" }] }
    rfl rfl rfl).1.mpr ⟨by decide, by decide⟩

/-! ## Claim C10 -/

/-- C10: in the auto isolation decision an agent with a missing or empty
declared tool list counts as write-capable; hence a chain containing any
task whose agent declares no tools selects worktree isolation, and a single
task with a write keyword whose agent declares no tools selects worktree
isolation. -/
theorem decideExecutionIsolation_missing_tools :
    (∀ agentTools : Option (List String),
      (agentTools = none ∨ agentTools = some []) → isWriteCapable agentTools = true) ∧
    (∀ input : ExecutionIsolationDecisionInput,
      input.requestedIsolation = .auto → input.mode = .chain →
      (∃ t ∈ input.chain.getD [], t.agentTools = none ∨ t.agentTools = some []) →
      (decideExecutionIsolation input).selectedIsolation = .worktree) ∧
    (∀ (input : ExecutionIsolationDecisionInput) (s : ExecutionIsolationTaskInput),
      input.requestedIsolation = .auto → input.mode = .single →
      input.single = some s → isWriteIntent s.task = true →
      (s.agentTools = none ∨ s.agentTools = some []) →
      (decideExecutionIsolation input).selectedIsolation = .worktree) := by
  have hcap : ∀ agentTools : Option (List String),
      (agentTools = none ∨ agentTools = some []) → isWriteCapable agentTools = true := by
    rintro _ (rfl | rfl) <;> rfl
  refine ⟨hcap, ?_, ?_⟩
  · intro input hiso hmode ⟨t, ht, htools⟩
    have hany : (extractIsolationTasks input).any
        (fun task => isWriteCapable task.agentTools) = true := by
      rw [List.any_eq_true]
      refine ⟨t, ?_, by simpa using hcap t.agentTools htools⟩
      unfold extractIsolationTasks
      rw [hmode]
      exact ht
    rw [show decideExecutionIsolation input =
        { requestedIsolation := input.requestedIsolation, selectedIsolation := .worktree,
          reason := "auto isolation: chained execution with write potential, using worktree" }
      from by
        unfold decideExecutionIsolation
        rw [hiso]
        dsimp only
        rw [hmode]
        dsimp only
        rw [hany]
        simp]
  · intro input s hiso hmode hsingle hwrite htools
    have htasks : extractIsolationTasks input = [s] := by
      unfold extractIsolationTasks
      rw [hmode]
      dsimp only
      rw [hsingle]
    have hany : (extractIsolationTasks input).any
        (fun task => isWriteIntent task.task) = true := by
      rw [htasks, List.any_eq_true]
      exact ⟨s, List.mem_singleton.mpr rfl, by simpa using hwrite⟩
    have hcapany : (extractIsolationTasks input).any
        (fun task => isWriteCapable task.agentTools) = true := by
      rw [htasks, List.any_eq_true]
      exact ⟨s, List.mem_singleton.mpr rfl, by simpa using hcap s.agentTools htools⟩
    rw [show decideExecutionIsolation input =
        { requestedIsolation := input.requestedIsolation, selectedIsolation := .worktree,
          reason := "auto isolation: single task with explicit write intent, using worktree" }
      from by
        unfold decideExecutionIsolation
        rw [hiso]
        dsimp only
        rw [hmode]
        dsimp only
        rw [hany, hcapany]
        simp]

/-- Concrete witness for C10: a single "update config" task for an agent
with no declared tools gets worktree isolation. -/
theorem decideExecutionIsolation_missing_tools_witness :
    (decideExecutionIsolation
      { requestedIsolation := .auto, mode := .single,
        single := some { task := "update config" } }).selectedIsolation =
      ResolvedExecutionIsolation.worktree :=
  decideExecutionIsolation_missing_tools.2.2
    { requestedIsolation := .auto, mode := .single,
      single := some { task := "update config" } }
    { task := "update config" } rfl rfl rfl (by decide) (Or.inl rfl)

/-! ## Claim C4 -/

/-- Concrete isolated-mode delegation for the C4 counterexample. -/
def isolatedDelegation : DelegationResult :=
  prepareDelegation [] "run1" .isolated 12 0 "scout" "List files" none .single "t1" "e1" 7

/-- C4 counterexample: the claim says an isolated-mode delegation leaves the
ledger unchanged, but `prepareDelegation` calls `appendDispatch`
unconditionally and `FileSharedContextStore.appendDispatch` never checks the
context mode, so the ledger gains a dispatch entry even in isolated mode. -/
theorem prepareDelegation_isolated_writes_cex :
    isolatedDelegation.ledger ≠ ([] : List SharedContextEntry) ∧
    isolatedDelegation.ledger.length = 1 := by
  refine ⟨by decide, by decide⟩

/-- C4 (amended): in isolated mode the packet is empty and the task handed
to the child equals the raw task, but the ledger is not unchanged: each
delegation still appends exactly one dispatch entry (and observations are
likewise appended unconditionally by the drivers); only the context packet
injection is disabled. -/
theorem prepareDelegation_isolated_spec (ledger : List SharedContextEntry)
    (storeRunId : String) (contextLimit budgetDepth : Int)
    (agentName rawTask : String) (parentTaskId : Option String)
    (runMode : TopologyMode) (taskId entryId : String) (nowMs : Int) :
    (prepareDelegation ledger storeRunId .isolated contextLimit budgetDepth
      agentName rawTask parentTaskId runMode taskId entryId nowMs).executionTask = rawTask ∧
    (prepareDelegation ledger storeRunId .isolated contextLimit budgetDepth
      agentName rawTask parentTaskId runMode taskId entryId nowMs).ledger =
      ledger ++ [SharedContextEntry.dispatch entryId storeRunId nowMs
        { runId := storeRunId, taskId := taskId, parentTaskId := parentTaskId,
          agent := agentName, task := rawTask, mode := runMode,
          depth := budgetDepth + 1, createdAtMs := nowMs } .isolated] ∧
    (∀ envelope recentEntries,
      buildSharedContextPacket .isolated envelope recentEntries = "") := by
  exact ⟨rfl, rfl, fun envelope recentEntries => rfl⟩

/-- Concrete witness for the amended C4. -/
theorem prepareDelegation_isolated_spec_witness :
    isolatedDelegation.executionTask = "List files" :=
  (prepareDelegation_isolated_spec [] "run1" 12 0 "scout" "List files" none
    .single "t1" "e1" 7).1

/-! ## Claim C6 -/

/-- C6: a ledger read with requested limit `N` returns only entries of the
store's run, in insertion order (a suffix of the run-filtered ledger, hence
the most recent entries), and at most `clamp(N, 1, 100)` of them. -/
theorem readRecent_spec (entries : List SharedContextEntry)
    (storeRunId : String) (limit : Int) :
    (∀ e ∈ readRecent entries storeRunId limit, e.entryRunId = storeRunId) ∧
    (readRecent entries storeRunId limit).length ≤ (max 1 (min 100 limit)).toNat ∧
    (readRecent entries storeRunId limit) <:+
      entries.filter (fun e => e.entryRunId == storeRunId) := by
  refine ⟨?_, ?_, ?_⟩
  · intro e he
    have hmem : e ∈ entries.filter (fun e => e.entryRunId == storeRunId) :=
      List.mem_of_mem_drop he
    have := List.of_mem_filter hmem
    simpa using this
  · show ((entries.filter (fun e => e.entryRunId == storeRunId)).drop _).length ≤ _
    rw [List.length_drop]
    omega
  · exact List.drop_suffix _ _

/-- Concrete witness for C6: a foreign-run entry is filtered out and the
limit keeps the most recent entry. -/
theorem readRecent_spec_witness :
    (∀ e ∈ readRecent
      [SharedContextEntry.observation "e1" "run1" 1 "t1" "scout" .success "ok",
       SharedContextEntry.observation "e2" "other" 2 "t2" "scout" .success "ok",
       SharedContextEntry.observation "e3" "run1" 3 "t3" "worker" .error "no"]
      "run1" 1, e.entryRunId = "run1") ∧
    (readRecent
      [SharedContextEntry.observation "e1" "run1" 1 "t1" "scout" .success "ok",
       SharedContextEntry.observation "e2" "other" 2 "t2" "scout" .success "ok",
       SharedContextEntry.observation "e3" "run1" 3 "t3" "worker" .error "no"]
      "run1" 1).length ≤ (max 1 (min 100 (1 : Int))).toNat :=
  ⟨(readRecent_spec
      [SharedContextEntry.observation "e1" "run1" 1 "t1" "scout" .success "ok",
       SharedContextEntry.observation "e2" "other" 2 "t2" "scout" .success "ok",
       SharedContextEntry.observation "e3" "run1" 3 "t3" "worker" .error "no"]
      "run1" 1).1,
   (readRecent_spec
      [SharedContextEntry.observation "e1" "run1" 1 "t1" "scout" .success "ok",
       SharedContextEntry.observation "e2" "other" 2 "t2" "scout" .success "ok",
       SharedContextEntry.observation "e3" "run1" 3 "t3" "worker" .error "no"]
      "run1" 1).2.1⟩

/-! ## Claim C5 -/

/-- C5: chain execution requires `remainingTokens ≥ chainLength` before any
spawn, failing otherwise with the "Insufficient subagent budget for chain"
message quoting the need and the balance; and a successful step reservation
with `k` steps remaining after it reserves `remainingTokens − (k + 1)`
descendant tokens for the child and leaves the parent exactly `k` tokens. -/
theorem chain_budget_reservation_spec (b : ExecutionBudget) (n : Nat)
    (a t : String) (k stepIndex : Nat) (allowNested : Bool) :
    (chainBudgetGuard b n = none ↔ (n : Int) ≤ b.remainingTokens) ∧
    (b.remainingTokens < (n : Int) →
      chainBudgetGuard b n = some ("Insufficient subagent budget for chain: need at least " ++
        toString (n : Int) ++ ", have " ++ toString b.remainingTokens ++ ".")) ∧
    (∀ b' c, chainStepReservation b a t k stepIndex allowNested = (b', Except.ok c) →
      c.remainingTokens = b.remainingTokens - ((k : Int) + 1) ∧
      b'.remainingTokens = (k : Int)) := by
  refine ⟨?_, ?_, ?_⟩
  · unfold chainBudgetGuard
    constructor
    · intro h
      by_contra hlt
      rw [if_pos (by omega)] at h
      cases h
    · intro h
      rw [if_neg (by omega)]
  · intro hlt
    unfold chainBudgetGuard
    rw [if_pos hlt]
  · intro b' c h
    unfold chainStepReservation at h
    dsimp only at h
    split at h
    · simp at h
    · next hge =>
      obtain ⟨hb', hc⟩ := reserveChildBudget_ok _ _ _ _ _ _ _ h
      subst hb'
      subst hc
      constructor
      · show max 0 (b.remainingTokens - ((k : Int) + 1)) = _
        omega
      · show b.remainingTokens - (1 + max 0 (b.remainingTokens - ((k : Int) + 1))) = _
        omega

/-- Expected parent budget for the C5 witness guard check. -/
def chainWitnessBudget : ExecutionBudget :=
  { runId := "r1", depth := 0, maxDepth := 2, rootStartedAtMs := 0,
    deadlineAtMs := 9, remainingTokens := 3, fingerprints := [],
    canSpawnChildren := true }

/-- Parent budget for the C5 witness step reservation. -/
def chainStepWitnessBudget : ExecutionBudget :=
  { runId := "r1", depth := 0, maxDepth := 2, rootStartedAtMs := 0,
    deadlineAtMs := 9, remainingTokens := 5, fingerprints := [],
    canSpawnChildren := true }

/-- Concrete witness for C5: the S5 scenario (3 tokens, chain of 4) and one
concrete successful step reservation (5 tokens, 2 later steps). -/
theorem chain_budget_reservation_spec_witness :
    chainBudgetGuard chainWitnessBudget 4 =
      some "Insufficient subagent budget for chain: need at least 4, have 3." ∧
    (chainStepReservation chainStepWitnessBudget "dev" "build" 2 0 true).1.remainingTokens = 2 := by
  constructor
  · have h := (chain_budget_reservation_spec chainWitnessBudget 4 "dev" "build" 2 0 true).2.1
      (by decide)
    rw [h]
    rfl
  · have h := (chain_budget_reservation_spec chainStepWitnessBudget 4 "dev" "build" 2 0 true).2.2
      (chainStepReservation chainStepWitnessBudget "dev" "build" 2 0 true).1
      { runId := "r1", nextDepth := 1, maxDepth := 2, rootStartedAtMs := 0,
        deadlineAtMs := 9, remainingTokens := 2, fingerprints := ["dev::build"],
        canSpawnChildren := true }
      rfl
    rw [h.2]
    rfl

/-! ## Claim C8 — lemmas -/

/-- `applySmokeResults` only touches `smokeResults` and `gates`. -/
theorem applySmokeResults_preserves (state : PhaseGateState)
    (results : List SmokeCommandResult) :
    (applySmokeResults state results).smokeFixAttempts = state.smokeFixAttempts ∧
    (applySmokeResults state results).smokeMaxFixAttempts = state.smokeMaxFixAttempts ∧
    (applySmokeResults state results).smokeFixHistory = state.smokeFixHistory ∧
    (applySmokeResults state results).requireSmoke = state.requireSmoke ∧
    (applySmokeResults state results).smokeMaxRetries = state.smokeMaxRetries := by
  exact ⟨rfl, rfl, rfl, rfl, rfl⟩

/-- The smoke retry loop only touches `smokeAttempts`, `smokeResults` and
`gates`. -/
theorem runSmokeRetryLoop_preserves (oracle : SmokeGateOracle) (iters : Nat)
    (state : PhaseGateState) (lastFailed : Option SmokeCommandResult) :
    (runSmokeRetryLoop oracle iters state lastFailed).1.smokeFixAttempts =
      state.smokeFixAttempts ∧
    (runSmokeRetryLoop oracle iters state lastFailed).1.smokeMaxFixAttempts =
      state.smokeMaxFixAttempts ∧
    (runSmokeRetryLoop oracle iters state lastFailed).1.smokeFixHistory =
      state.smokeFixHistory ∧
    (runSmokeRetryLoop oracle iters state lastFailed).1.requireSmoke =
      state.requireSmoke := by
  induction iters generalizing state lastFailed with
  | zero => exact ⟨rfl, rfl, rfl, rfl⟩
  | succ k ih =>
    show ((match (oracle.smokeResults state.smokeAttempts.toNat).find?
        (fun result => result.exitCode != 0) with
      | none => _
      | some failed => _) : PhaseGateState × Bool × Option SmokeCommandResult).1.smokeFixAttempts
        = _ ∧ _
    rcases hfind : (oracle.smokeResults state.smokeAttempts.toNat).find?
        (fun result => result.exitCode != 0) with _ | failed
    · simp only [runSmokeRetryLoop, hfind]
      exact ⟨rfl, rfl, rfl, rfl⟩
    · simp only [runSmokeRetryLoop, hfind]
      exact ih _ _

/-- When every smoke invocation of the oracle has a failing command, the
retry loop never reports a pass. -/
theorem runSmokeRetryLoop_all_fail (oracle : SmokeGateOracle)
    (hfail : ∀ kk, (oracle.smokeResults kk).any (fun r => r.exitCode != 0) = true)
    (iters : Nat) (state : PhaseGateState) (lastFailed : Option SmokeCommandResult) :
    (runSmokeRetryLoop oracle iters state lastFailed).2.1 = false := by
  induction iters generalizing state lastFailed with
  | zero => rfl
  | succ k ih =>
    rcases hfind : (oracle.smokeResults state.smokeAttempts.toNat).find?
        (fun result => result.exitCode != 0) with _ | failed
    · exfalso
      have := hfail state.smokeAttempts.toNat
      rw [List.any_eq_true] at this
      obtain ⟨r, hr, hrc⟩ := this
      have := List.find?_eq_none.mp hfind r hr
      rw [hrc] at this
      exact this rfl
    · simp only [runSmokeRetryLoop, hfind]
      exact ih _ _

/-- Invariant of the bounded fix loop: the cap is preserved, the recorded
fix-attempt counter stays within the cap whenever the loop is entered with
attempt numbers within the cap, and at most one history record is appended
per attempt. -/
theorem smokeFixLoop_invariant (oracle : SmokeGateOracle) (fixAgentName : String)
    (fixNested : Bool) (initialFailed : Option SmokeCommandResult)
    (attempts : List Int) (budget : ExecutionBudget) (state : PhaseGateState)
    (hmax : ∀ aa ∈ attempts, aa ≤ state.smokeMaxFixAttempts)
    (hfa : state.smokeFixAttempts ≤ state.smokeMaxFixAttempts) :
    (smokeFixLoop oracle fixAgentName fixNested initialFailed attempts budget
        state).state.smokeMaxFixAttempts = state.smokeMaxFixAttempts ∧
    (smokeFixLoop oracle fixAgentName fixNested initialFailed attempts budget
        state).state.smokeFixAttempts ≤ state.smokeMaxFixAttempts ∧
    (smokeFixLoop oracle fixAgentName fixNested initialFailed attempts budget
        state).state.smokeFixHistory.length ≤
      state.smokeFixHistory.length + attempts.length := by
  induction attempts generalizing budget state with
  | nil => exact ⟨rfl, hfa, Nat.le_add_right _ _⟩
  | cons a rest ih =>
    have ha : a ≤ state.smokeMaxFixAttempts := hmax a (List.mem_cons_self a rest)
    have hrest : ∀ aa ∈ rest, aa ≤ state.smokeMaxFixAttempts :=
      fun aa haa => hmax aa (List.mem_cons_of_mem a haa)
    simp only [smokeFixLoop]
    split
    · refine ⟨rfl, ?_, ?_⟩
      · simp only [recordSmokeFixAttempt]
        omega
      · simp only [recordSmokeFixAttempt, List.length_append, List.length_cons,
          List.length_nil]
        omega
    · split
      · refine ⟨rfl, ?_, ?_⟩
        · simp only [recordSmokeFixAttempt]
          omega
        · simp only [recordSmokeFixAttempt, List.length_append, List.length_cons,
            List.length_nil]
          omega
      · next x budget1 child heqres =>
        split
        · have hstep := ih budget1 (recordSmokeFixAttempt state
            { attempt := a, agent := fixAgentName, outcome := .error,
              summary := "fix run failed: " ++ (oracle.fixSummary a.toNat).take 180 })
            (by simpa [recordSmokeFixAttempt] using hrest)
            (by simp only [recordSmokeFixAttempt]; omega)
          refine ⟨?_, ?_, ?_⟩
          · exact hstep.1
          · exact hstep.2.1
          · refine le_trans hstep.2.2 ?_
            simp only [recordSmokeFixAttempt, List.length_append, List.length_cons,
              List.length_nil]
            omega
        · split
          · next state2 x2 heq =>
            have hpres := runSmokeRetryLoop_preserves oracle
              (state.smokeMaxRetries + 1).toNat state none
            rw [heq] at hpres
            dsimp only at hpres
            refine ⟨?_, ?_, ?_⟩
            · simp only [recordSmokeFixAttempt]
              exact hpres.2.1
            · simp only [recordSmokeFixAttempt]
              rw [hpres.1]
              omega
            · simp only [recordSmokeFixAttempt, List.length_append, List.length_cons,
                List.length_nil]
              rw [hpres.2.2.1]
              omega
          · next state2 x2 heq =>
            have hpres := runSmokeRetryLoop_preserves oracle
              (state.smokeMaxRetries + 1).toNat state none
            rw [heq] at hpres
            dsimp only at hpres
            have hstep := ih budget1 (recordSmokeFixAttempt state2
              { attempt := a, agent := fixAgentName, outcome := .error,
                summary := match state2.smokeResults.find?
                    (fun result => result.exitCode != 0) with
                  | some f => "smoke still failing: " ++ f.command ++ " (exit " ++
                      toString f.exitCode ++ ")"
                  | none => "smoke still failing after fix" })
              (by
                intro aa haa
                simp only [recordSmokeFixAttempt]
                rw [hpres.2.1]
                exact hrest aa haa)
              (by
                simp only [recordSmokeFixAttempt]
                rw [hpres.1, hpres.2.1]
                omega)
            refine ⟨?_, ?_, ?_⟩
            · rw [hstep.1]
              simp only [recordSmokeFixAttempt]
              exact hpres.2.1
            · exact le_trans hstep.2.1 (by
                simp only [recordSmokeFixAttempt]
                exact le_of_eq hpres.2.1)
            · refine le_trans hstep.2.2 ?_
              simp only [recordSmokeFixAttempt, List.length_append, List.length_cons,
                List.length_nil, hpres.2.2.1]
              omega

/-- When every smoke invocation fails, the fix loop can never return
success. -/
theorem smokeFixLoop_all_fail (oracle : SmokeGateOracle)
    (hfail : ∀ kk, (oracle.smokeResults kk).any (fun r => r.exitCode != 0) = true)
    (fixAgentName : String) (fixNested : Bool)
    (initialFailed : Option SmokeCommandResult) (attempts : List Int)
    (budget : ExecutionBudget) (state : PhaseGateState) :
    (smokeFixLoop oracle fixAgentName fixNested initialFailed attempts budget
      state).ok = false := by
  induction attempts generalizing budget state with
  | nil => rfl
  | cons a rest ih =>
    simp only [smokeFixLoop]
    split
    · rfl
    · split
      · rfl
      · split
        · exact ih _ _
        · split
          · next state2 x heq =>
            exfalso
            have := runSmokeRetryLoop_all_fail oracle hfail
              (state.smokeMaxRetries + 1).toNat state none
            rw [heq] at this
            cases this
          · exact ih _ _

/-- Gate-level invariant, for any starting state with zero recorded fix
attempts and empty history and a non-negative cap (as produced by
`createPhaseGateState`). -/
theorem runPhaseSmokeGate_invariant (oracle : SmokeGateOracle)
    (fixAgent : Option (String × Bool)) (budget : ExecutionBudget)
    (st : PhaseGateState) (hfa0 : st.smokeFixAttempts = 0)
    (hhist0 : st.smokeFixHistory = []) (hmax0 : 0 ≤ st.smokeMaxFixAttempts) :
    (runPhaseSmokeGate oracle fixAgent budget st).state.smokeFixAttempts ≤
      (runPhaseSmokeGate oracle fixAgent budget st).state.smokeMaxFixAttempts ∧
    (runPhaseSmokeGate oracle fixAgent budget st).state.smokeFixHistory.length ≤
      (runPhaseSmokeGate oracle fixAgent budget st).state.smokeMaxFixAttempts.toNat ∧
    ((st.requireSmoke = true ∧ st.smokeCommands ≠ [] ∧
      (∀ kk, (oracle.smokeResults kk).any (fun r => r.exitCode != 0) = true)) →
      (runPhaseSmokeGate oracle fixAgent budget st).ok = false) := by
  unfold runPhaseSmokeGate
  split
  · next hcmds =>
    refine ⟨?_, ?_, ?_⟩
    · show st.smokeFixAttempts ≤ st.smokeMaxFixAttempts
      omega
    · show st.smokeFixHistory.length ≤ st.smokeMaxFixAttempts.toNat
      rw [hhist0]
      exact Nat.zero_le _
    · rintro ⟨-, hne, -⟩
      exact absurd (List.length_eq_zero.mp hcmds) hne
  · split
    · next state1 x heq =>
      have hpres := runSmokeRetryLoop_preserves oracle (st.smokeMaxRetries + 1).toNat st none
      rw [heq] at hpres
      dsimp only at hpres
      have hc1 : state1.smokeFixAttempts ≤ state1.smokeMaxFixAttempts := by
        rw [hpres.1, hpres.2.1]
        omega
      have hc2 : state1.smokeFixHistory.length ≤ state1.smokeMaxFixAttempts.toNat := by
        rw [hpres.2.2.1, hhist0]
        exact Nat.zero_le _
      have hc3 : (∀ kk, (oracle.smokeResults kk).any (fun r => r.exitCode != 0) = true) →
          False := by
        intro hfail
        have hall := runSmokeRetryLoop_all_fail oracle hfail (st.smokeMaxRetries + 1).toNat st none
        rw [heq] at hall
        exact absurd hall (by simp)
      dsimp only
      split
      · exact ⟨hc1, hc2, fun h => (hc3 h.2.2).elim⟩
      · exact ⟨hc1, hc2, fun h => (hc3 h.2.2).elim⟩
    · next state1 initialFailed heq =>
      have hpres := runSmokeRetryLoop_preserves oracle (st.smokeMaxRetries + 1).toNat st none
      rw [heq] at hpres
      dsimp only at hpres
      have hc1 : state1.smokeFixAttempts ≤ state1.smokeMaxFixAttempts := by
        rw [hpres.1, hpres.2.1]
        omega
      have hc2 : state1.smokeFixHistory.length ≤ state1.smokeMaxFixAttempts.toNat := by
        rw [hpres.2.2.1, hhist0]
        exact Nat.zero_le _
      split
      · next hnreq =>
        refine ⟨?_, ?_, ?_⟩
        · split <;> exact hc1
        · split <;> exact hc2
        · rintro ⟨hreq, -, -⟩
          exfalso
          rw [Bool.not_eq_true'] at hnreq
          rw [hpres.2.2.2, hreq] at hnreq
          cases hnreq
      · split
        · exact ⟨hc1, hc2, fun _ => rfl⟩
        · next fixAgentName fixNested =>
          split
          · exact ⟨hc1, hc2, fun _ => rfl⟩
          · have hmax1 : 0 ≤ state1.smokeMaxFixAttempts := by
              rw [hpres.2.1]
              omega
            have hmaxmem : ∀ aa ∈ (List.range state1.smokeMaxFixAttempts.toNat).map
                (fun k : Nat => (k : Int) + 1), aa ≤ state1.smokeMaxFixAttempts := by
              intro aa haa
              simp only [List.mem_map, List.mem_range] at haa
              obtain ⟨k, hk, rfl⟩ := haa
              omega
            have hinv := smokeFixLoop_invariant oracle fixAgentName fixNested initialFailed
              ((List.range state1.smokeMaxFixAttempts.toNat).map (fun k : Nat => (k : Int) + 1))
              budget state1 hmaxmem (by rw [hpres.1, hpres.2.1]; omega)
            refine ⟨?_, ?_, ?_⟩
            · rw [hinv.1]
              exact hinv.2.1
            · rw [hinv.1]
              refine le_trans hinv.2.2 ?_
              rw [hpres.2.2.1, hhist0]
              simp only [List.length_nil, List.length_map, List.length_range, Nat.zero_add]
              exact le_refl _
            · rintro ⟨-, -, hfail⟩
              exact smokeFixLoop_all_fail oracle hfail fixAgentName fixNested
                initialFailed _ budget state1

/-- C8: at every terminal state of the phase smoke gate the recorded
`smokeFixAttempts` counter is bounded by `smokeMaxFixAttempts`, the fix loop
appends at most `smokeMaxFixAttempts` records to `smokeFixHistory`, and when
smoke is required, commands are configured and every smoke invocation keeps
failing, the gate reports failure (which the orchestrator turns into a
failed tool call). -/
theorem runPhaseSmokeGate_bounded_fix (oracle : SmokeGateOracle)
    (fixAgent : Option (String × Bool)) (budget : ExecutionBudget)
    (init : PhaseGateInit) :
    (runPhaseSmokeGate oracle fixAgent budget (createPhaseGateState init)).state.smokeFixAttempts ≤
      (runPhaseSmokeGate oracle fixAgent budget
        (createPhaseGateState init)).state.smokeMaxFixAttempts ∧
    (runPhaseSmokeGate oracle fixAgent budget
        (createPhaseGateState init)).state.smokeFixHistory.length ≤
      (runPhaseSmokeGate oracle fixAgent budget
        (createPhaseGateState init)).state.smokeMaxFixAttempts.toNat ∧
    (((createPhaseGateState init).requireSmoke = true ∧
      (createPhaseGateState init).smokeCommands ≠ [] ∧
      (∀ kk, (oracle.smokeResults kk).any (fun r => r.exitCode != 0) = true)) →
      (runPhaseSmokeGate oracle fixAgent budget (createPhaseGateState init)).ok = false) :=
  runPhaseSmokeGate_invariant oracle fixAgent budget (createPhaseGateState init)
    rfl rfl (le_max_left 0 _)

/-- Failing smoke result for the C8 witness. -/
def smokeWitnessResult : SmokeCommandResult :=
  { command := "npm test", exitCode := 1, stdout := "", stderr := "boom",
    durationMs := 5 }

/-- Oracle for the C8 witness: the smoke command always fails and every fix
child run fails. -/
def smokeWitnessOracle : SmokeGateOracle :=
  { smokeResults := fun _ => [smokeWitnessResult]
    fixRunFails := fun _ => true
    fixSummary := fun _ => "could not fix" }

/-- Gate configuration for the C8 witness. -/
def smokeWitnessInit : PhaseGateInit :=
  { requireSmoke := some true, smokeCommands := some ["npm test"],
    topologySummary := "single", smokeMaxRetries := some 0,
    smokeMaxFixAttempts := some 2 }

/-- Budget for the C8 witness. -/
def smokeWitnessBudget : ExecutionBudget :=
  { runId := "r8", depth := 0, maxDepth := 2, rootStartedAtMs := 0,
    deadlineAtMs := 9, remainingTokens := 5, fingerprints := [],
    canSpawnChildren := true }

/-- Concrete witness for C8: with an always-failing smoke command and
always-failing fix runs the gate fails. -/
theorem runPhaseSmokeGate_bounded_fix_witness :
    (runPhaseSmokeGate smokeWitnessOracle (some ("fixer", false)) smokeWitnessBudget
      (createPhaseGateState smokeWitnessInit)).ok = false :=
  (runPhaseSmokeGate_bounded_fix smokeWitnessOracle (some ("fixer", false))
    smokeWitnessBudget smokeWitnessInit).2.2
    ⟨rfl, by decide, fun kk => by
      show (List.any [smokeWitnessResult] (fun r => r.exitCode != 0)) = true
      decide⟩

end Subagent
